import Mathlib

set_option maxRecDepth 100000
set_option maxHeartbeats 2000000

/-!
Shallow embedding of the QtCraft voxel engine (src/QtCraft/openglwindow.cpp,
openglwindow.h, block.h) and proofs about its world addressing, terrain
classification, lighting engine, chunk meshing, collision resolution and
raycasting.

Modelling conventions:
* `uint8_t` block ids and light levels are `Nat` (no arithmetic in the code
  ever wraps: levels stay below 256 and block ids below 5).
* `glm::ivec3` is `IVec3` (a triple of `Int`).
* `float` positions are `ℚ`; float literals such as `0.6f`, `0.2f`, `0.0001f`
  are taken at their decimal face value.  `floor(x / 16.0f)` is exact integer
  floor division for every coordinate the program can produce, so it is
  embedded as Euclidean division by the positive constant 16.
* `std::unordered_map<ivec3, unique_ptr<Chunk>>` is a function
  `IVec3 → Option Chunk`; the fixed-size `uint8_t blocks[16][128][16]` arrays
  are functions `IVec3 → Nat` (the code only ever indexes y in 0..15, guarded
  by the bound checks that are embedded verbatim).
* `std::queue<LightNode>` is a `List LightNode` (pop at the head, push at the
  tail); the unbounded `while` loops of the light engine take an explicit
  fuel argument, and the termination theorem (claim C10) shows the chosen
  fuel always drains the queue, so the fueled functions agree with the C++
  loops.
-/

namespace QtCraft

/-- Integer 3-vector, embedding `glm::ivec3`. -/
structure IVec3 where
  x : Int
  y : Int
  z : Int
deriving DecidableEq, Repr

instance : Add IVec3 := ⟨fun a b => ⟨a.x + b.x, a.y + b.y, a.z + b.z⟩⟩

/-- Componentwise scaling, embedding `chunk_coords * Chunk::CHUNK_SIZE`. -/
def IVec3.smul (a : IVec3) (k : Int) : IVec3 := ⟨a.x * k, a.y * k, a.z * k⟩

theorem IVec3.add_def (a b : IVec3) : a + b = ⟨a.x + b.x, a.y + b.y, a.z + b.z⟩ := rfl

/-- Block ids from `block.h` (`enum class BlockType : uint8_t`). -/
def BlockType.Air : Nat := 0

def BlockType.Stone : Nat := 1

def BlockType.Dirt : Nat := 2

def BlockType.Grass : Nat := 3

def BlockType.Water : Nat := 4

/-- `CHUNK_SIZE_XZ`, also `Chunk::CHUNK_SIZE`: the chunk edge length used by
every coordinate computation in openglwindow.cpp. -/
def CHUNK_SIZE : Int := 16

/-- A chunk: block array, lighting array and the remeshing flag.  The `vao`,
`vbo` and mesh-data members are GPU plumbing and are not part of the world
state the claims are about. -/
structure Chunk where
  blocks : IVec3 → Nat
  lighting : IVec3 → Nat
  needs_remeshing : Bool

/-- The resident chunk store `m_chunks`. -/
structure World where
  chunks : IVec3 → Option Chunk

/-- Replace (or insert) the chunk stored at key `cc`. -/
def World.setChunk (w : World) (cc : IVec3) (c : Chunk) : World :=
  ⟨fun q => if q = cc then some c else w.chunks q⟩

/-- `OpenGLWindow::worldToChunkCoords` (openglwindow.cpp:1199).  The source
computes `(int)floor(world_pos.x / 16.0f)`; for 16 > 0 this is Euclidean
division, and the float arithmetic is exact for all reachable coordinates. -/
def worldToChunkCoords (p : IVec3) : IVec3 :=
  ⟨p.x / CHUNK_SIZE, p.y / CHUNK_SIZE, p.z / CHUNK_SIZE⟩

/-- `world_pos - chunk_coords * Chunk::CHUNK_SIZE`, the local position used by
`getBlock`, `setBlock`, `getLight` and `setLight`. -/
def localPos (p cc : IVec3) : IVec3 :=
  ⟨p.x - cc.x * CHUNK_SIZE, p.y - cc.y * CHUNK_SIZE, p.z - cc.z * CHUNK_SIZE⟩

/-- The in-bounds test all four accessors perform on the local position
(each checks `local < 0 || local >= CHUNK_SIZE` on every component). -/
def inLocalBounds (l : IVec3) : Prop :=
  0 ≤ l.x ∧ l.x < CHUNK_SIZE ∧ 0 ≤ l.y ∧ l.y < CHUNK_SIZE ∧ 0 ≤ l.z ∧ l.z < CHUNK_SIZE

instance (l : IVec3) : Decidable (inLocalBounds l) := by
  unfold inLocalBounds; infer_instance

/-- `OpenGLWindow::getBlock` (openglwindow.cpp:1005): absent chunk or
out-of-bounds local position reads as `Air`. -/
def getBlock (w : World) (p : IVec3) : Nat :=
  match w.chunks (worldToChunkCoords p) with
  | none => BlockType.Air
  | some c =>
    let l := localPos p (worldToChunkCoords p)
    if ¬ inLocalBounds l then BlockType.Air
    else c.blocks l

/-- `OpenGLWindow::getLight` (openglwindow.cpp:967): absent chunk or
out-of-bounds local position reads as light 0. -/
def getLight (w : World) (p : IVec3) : Nat :=
  match w.chunks (worldToChunkCoords p) with
  | none => 0
  | some c =>
    let l := localPos p (worldToChunkCoords p)
    if ¬ inLocalBounds l then 0
    else c.lighting l

/-- `OpenGLWindow::setLight` (openglwindow.cpp:984): writes the level and
marks the chunk for remeshing only when the stored level actually changes. -/
def setLight (w : World) (p : IVec3) (level : Nat) : World :=
  match w.chunks (worldToChunkCoords p) with
  | none => w
  | some c =>
    let cc := worldToChunkCoords p
    let l := localPos p cc
    if ¬ inLocalBounds l then w
    else if c.lighting l ≠ level then
      w.setChunk cc
        { c with
          lighting := fun q => if q = l then level else c.lighting q
          needs_remeshing := true }
    else w

/-- The transparency test used throughout the source:
`type == BlockType::Air || type == BlockType::Water`. -/
def isTransparent (id : Nat) : Bool :=
  id == BlockType.Air || id == BlockType.Water

/-- `struct LightNode` (openglwindow.h:78). -/
structure LightNode where
  pos : IVec3
  level : Nat
deriving DecidableEq, Repr

/-- The neighbor offset table shared by `propagateLight`, `removeLight`,
`setBlock` and `updateGame` (in source order). -/
def neighbors6 : List IVec3 :=
  [⟨0, 0, 1⟩, ⟨0, 0, -1⟩, ⟨0, 1, 0⟩, ⟨0, -1, 0⟩, ⟨1, 0, 0⟩, ⟨-1, 0, 0⟩]

/-- Processing of one neighbor inside the `propagateLight` loop
(openglwindow.cpp:1063-1072): if the neighbor is transparent and strictly
darker than `level - 1`, brighten it and enqueue it. -/
def propagateVisit (n : LightNode) (s : World × List LightNode) (off : IVec3) :
    World × List LightNode :=
  let np := n.pos + off
  if isTransparent (getBlock s.1 np) = true ∧ getLight s.1 np < n.level - 1 then
    (setLight s.1 np (n.level - 1), s.2 ++ [⟨np, n.level - 1⟩])
  else s

/-- Body of one `propagateLight` loop iteration: visit the six neighbors of
the popped node `n`, threading the world and the queue (already popped to
`rest`). -/
def propagateNode (w : World) (n : LightNode) (rest : List LightNode) :
    World × List LightNode :=
  neighbors6.foldl (propagateVisit n) (w, rest)

/-- The `while (!propagation_queue.empty())` loop of
`OpenGLWindow::propagateLight` (openglwindow.cpp:1057-1073), with fuel. -/
def propagateLightAux : Nat → World → List LightNode → World × List LightNode
  | 0, w, q => (w, q)
  | _ + 1, w, [] => (w, [])
  | f + 1, w, n :: rest =>
    if n.level ≤ 1 then propagateLightAux f w rest
    else
      let s := propagateNode w n rest
      propagateLightAux f s.1 s.2

/-- Fuel that always suffices to drain a light queue: one pop of level `L`
adds at most six entries of level `L - 1` (propagation) or of strictly
smaller level (removal), so the sum of `7 ^ level` strictly decreases. -/
def lightFuel (q : List LightNode) : Nat :=
  (q.map fun n => 7 ^ n.level).sum

/-- `OpenGLWindow::propagateLight` (openglwindow.cpp:1052). -/
def propagateLight (w : World) (q : List LightNode) : World :=
  (propagateLightAux (lightFuel q) w q).1

/-- Processing of one neighbor inside the `removeLight` loop
(openglwindow.cpp:1036-1045): a lit neighbor strictly darker than the popped
level is cleared and enqueued for further removal; a neighbor at least as
bright is pushed onto the re-propagation queue. -/
def removeVisit (n : LightNode) (s : World × List LightNode × List LightNode)
    (off : IVec3) : World × List LightNode × List LightNode :=
  let np := n.pos + off
  let nl := getLight s.1 np
  if nl ≠ 0 ∧ nl < n.level then
    (setLight s.1 np 0, s.2.1 ++ [⟨np, nl⟩], s.2.2)
  else if n.level ≤ nl then
    (s.1, s.2.1, s.2.2 ++ [⟨np, nl⟩])
  else s

/-- Body of one `removeLight` loop iteration: state is (world, removal queue
already popped to `rest`, accumulated propagation queue). -/
def removeNode (w : World) (n : LightNode) (rest pq : List LightNode) :
    World × List LightNode × List LightNode :=
  neighbors6.foldl (removeVisit n) (w, rest, pq)

/-- The `while (!removal_queue.empty())` loop of `OpenGLWindow::removeLight`
(openglwindow.cpp:1032-1047), with fuel. -/
def removeLightAux :
    Nat → World → List LightNode → List LightNode →
      World × List LightNode × List LightNode
  | 0, w, rq, pq => (w, rq, pq)
  | _ + 1, w, [], pq => (w, [], pq)
  | f + 1, w, n :: rest, pq =>
    let s := removeNode w n rest pq
    removeLightAux f s.1 s.2.1 s.2.2

/-- `OpenGLWindow::removeLight` (openglwindow.cpp:1025): drain the removal
queue, then propagate the accumulated re-seed queue. -/
def removeLight (w : World) (rq : List LightNode) : World :=
  let s := removeLightAux (lightFuel rq) w rq []
  propagateLight s.1 s.2.2

/-- The `max_neighbor_light` computation of `setBlock`
(openglwindow.cpp:1139-1143). -/
def maxNeighborLight (w : World) (p : IVec3) : Nat :=
  neighbors6.foldl (fun acc off => Nat.max acc (getLight w (p + off))) 0

/-- The `exposed_to_sky` scan of `setBlock` (openglwindow.cpp:1109-1118):
walk from `p.y + 1` up to the fixed world top `y = 127` and require every
block on the way to be transparent. -/
def exposedToSky (w : World) (p : IVec3) : Bool :=
  ((List.range (127 - p.y).toNat).map fun i => p.y + 1 + i).all
    fun y => isTransparent (getBlock w ⟨p.x, y, p.z⟩)

/-- The downward skylight loop of `setBlock` (openglwindow.cpp:1125-1135):
from `p` walk down to the fixed world bottom `y = -16`, stopping at the first
opaque block; every transparent cell with light below 15 is set to 15 and
queued.  The counter argument is the number of cells left to visit. -/
def propagateSkyDown :
    Nat → World → IVec3 → List LightNode → World × List LightNode
  | 0, w, _, q => (w, q)
  | n + 1, w, p, q =>
    if isTransparent (getBlock w p) = true then
      if getLight w p < 15 then
        propagateSkyDown n (setLight w p 15) ⟨p.x, p.y - 1, p.z⟩ (q ++ [⟨p, 15⟩])
      else propagateSkyDown n w ⟨p.x, p.y - 1, p.z⟩ q
    else (w, q)

/-- The border-remesh marking of `setBlock` (openglwindow.cpp:1172-1195):
if a neighboring chunk is resident, set its `needs_remeshing` flag. -/
def markNeighborDirty (w : World) (cc : IVec3) : World :=
  match w.chunks cc with
  | none => w
  | some c => w.setChunk cc { c with needs_remeshing := true }

/-- The part of `OpenGLWindow::setBlock` past its early returns
(openglwindow.cpp:1092-1196): write the voxel, mark the chunk dirty, run the
lighting update protocol for the transparency transition, then mark
face-adjacent chunks dirty when the voxel lies on the chunk border. -/
def setBlockChanged (w : World) (p : IVec3) (block_id : Nat) (c : Chunk)
    (cc l : IVec3) : World :=
      let old_block := c.blocks l
      let old_light := getLight w p
      let w1 := w.setChunk cc
        { c with
          blocks := fun q => if q = l then block_id else c.blocks q
          needs_remeshing := true }
      let w3 :=
        if isTransparent old_block = false ∧ isTransparent block_id = true then
          let s1 :=
            if exposedToSky w1 p then propagateSkyDown (p.y + 17).toNat w1 p []
            else (w1, [])
          let maxnl := maxNeighborLight s1.1 p
          let s2 :=
            if 0 < maxnl then
              let new_light := maxnl - 1
              if getLight s1.1 p < new_light then
                (setLight s1.1 p new_light, s1.2 ++ [⟨p, new_light⟩])
              else s1
            else
              if 0 < getLight s1.1 p then (s1.1, s1.2 ++ [⟨p, getLight s1.1 p⟩])
              else s1
          propagateLight s2.1 s2.2
        else if isTransparent old_block = true ∧ isTransparent block_id = false then
          if 0 < old_light then removeLight (setLight w1 p 0) [⟨p, old_light⟩]
          else w1
        else w1
      let w4 := if l.x = 0 then markNeighborDirty w3 (cc + ⟨-1, 0, 0⟩) else w3
      let w5 := if l.x = CHUNK_SIZE - 1 then markNeighborDirty w4 (cc + ⟨1, 0, 0⟩) else w4
      let w6 := if l.y = 0 then markNeighborDirty w5 (cc + ⟨0, -1, 0⟩) else w5
      let w7 := if l.y = CHUNK_SIZE - 1 then markNeighborDirty w6 (cc + ⟨0, 1, 0⟩) else w6
      let w8 := if l.z = 0 then markNeighborDirty w7 (cc + ⟨0, 0, -1⟩) else w7
      if l.z = CHUNK_SIZE - 1 then markNeighborDirty w8 (cc + ⟨0, 0, 1⟩) else w8

/-- `OpenGLWindow::setBlock` (openglwindow.cpp:1076-1196): early returns for
an absent chunk, an out-of-bounds local position, and an unchanged voxel;
otherwise the mutation path `setBlockChanged`. -/
def setBlock (w : World) (p : IVec3) (block_id : Nat) : World :=
  match w.chunks (worldToChunkCoords p) with
  | none => w
  | some c =>
    let cc := worldToChunkCoords p
    let l := localPos p cc
    if ¬ inLocalBounds l then w
    else if c.blocks l = block_id then w
    else setBlockChanged w p block_id c cc l

/-- The per-voxel terrain classification of `OpenGLWindow::generateChunk`
(openglwindow.cpp:386-407), given the integer terrain height of the column
and the world y of the voxel (`sea_level = 8`). -/
def generateBlockAt (terrain_height world_y : Int) : Nat :=
  if world_y > terrain_height then
    if world_y ≤ 8 then BlockType.Water else BlockType.Air
  else
    if world_y = terrain_height ∧ world_y > 8 then BlockType.Grass
    else if world_y > terrain_height - 5 then BlockType.Dirt
    else BlockType.Stone

/-- The empty chunk store: every lookup misses. -/
def emptyWorld : World := ⟨fun _ => none⟩

/-- A one-chunk world holding a single Stone voxel at world position
(2, 0, 0); everything else is Air. -/
def stoneChunk : Chunk :=
  ⟨fun l => if l = ⟨2, 0, 0⟩ then BlockType.Stone else BlockType.Air, fun _ => 0, false⟩

/-- The store resident at chunk key (0, 0, 0) only. -/
def stoneWorld : World :=
  ⟨fun cc => if cc = ⟨0, 0, 0⟩ then some stoneChunk else none⟩

/-- C2 counterexample: the owning chunk is not determined by
(⌊wx/16⌋, ⌊wz/16⌋) alone — positions (0, 0, 0) and (0, 16, 0) share their
x and z but live in different chunks — and the local position of (0, 16, 0)
is not (0, 16, 0): the y coordinate is reduced mod 16 as well. -/
theorem C2_counterexample :
    worldToChunkCoords ⟨0, 16, 0⟩ ≠ worldToChunkCoords ⟨0, 0, 0⟩ ∧
    localPos ⟨0, 16, 0⟩ (worldToChunkCoords ⟨0, 16, 0⟩) ≠ ⟨0, 16, 0⟩ := by
  decide

/-- C2 (amended): chunks are 16 × 16 × 16 cubes.  For every world position
the owning chunk key is (⌊wx/16⌋, ⌊wy/16⌋, ⌊wz/16⌋), the local position is
(wx mod 16, wy mod 16, wz mod 16), and `getBlock` reads exactly that cell of
that chunk (Air when the chunk is absent); the accessors' defensive bound
check on the local position never fires. -/
theorem C2_chunk_addressing (w : World) (p : IVec3) :
    worldToChunkCoords p = ⟨p.x / 16, p.y / 16, p.z / 16⟩ ∧
    localPos p (worldToChunkCoords p) = ⟨p.x % 16, p.y % 16, p.z % 16⟩ ∧
    getBlock w p =
      (match w.chunks (worldToChunkCoords p) with
       | none => BlockType.Air
       | some c => c.blocks ⟨p.x % 16, p.y % 16, p.z % 16⟩) := by
  have hl : localPos p (worldToChunkCoords p) = ⟨p.x % 16, p.y % 16, p.z % 16⟩ := by
    simp only [localPos, worldToChunkCoords, CHUNK_SIZE, IVec3.mk.injEq]
    omega
  refine ⟨rfl, hl, ?_⟩
  unfold getBlock
  cases h : w.chunks (worldToChunkCoords p) with
  | none => rfl
  | some c =>
    simp only [hl]
    have hb : inLocalBounds ⟨p.x % 16, p.y % 16, p.z % 16⟩ := by
      unfold inLocalBounds CHUNK_SIZE
      dsimp only
      omega
    simp [hb]

/-- C3 counterexample: at terrain height 8 (= sea level) the surface voxel
`y = height = 8 ≤ sea_level` generates Dirt, not the Stone the claim
demands. -/
theorem C3_counterexample :
    generateBlockAt 8 8 = BlockType.Dirt ∧ generateBlockAt 8 8 ≠ BlockType.Stone := by
  decide

/-- Spec-side terrain classifier, amended: Water strictly above the terrain
up to sea level; Air strictly above both; Grass at the surface when above sea
level; Dirt for `height - 5 < y ≤ height` otherwise (including the surface
voxel at or below sea level); Stone exactly when `y ≤ height - 5`. -/
def terrainSpecBlock (h y : Int) : Nat :=
  if y > h ∧ y ≤ 8 then BlockType.Water
  else if y > h ∧ y > 8 then BlockType.Air
  else if y = h ∧ y > 8 then BlockType.Grass
  else if h - 5 < y ∧ y ≤ h then BlockType.Dirt
  else BlockType.Stone

/-- C3 (amended): the generated voxel is Water above the terrain at or below
sea level 8, Air above both, Grass at the surface above sea level, Dirt for
`height - 5 < y ≤ height` otherwise (in particular Dirt when
`y = height ≤ sea_level`), and Stone exactly when `y ≤ height - 5`. -/
theorem C3_terrain_classification (h y : Int) :
    generateBlockAt h y = terrainSpecBlock h y := by
  unfold generateBlockAt terrainSpecBlock BlockType.Water BlockType.Air
    BlockType.Grass BlockType.Dirt BlockType.Stone
  split_ifs <;> omega

/-- C4 counterexample: with no chunk resident, `getBlock` does read as Air,
but the observed light is 0, not the claimed 15. -/
theorem C4_counterexample :
    emptyWorld.chunks (worldToChunkCoords ⟨0, 0, 0⟩) = none ∧
    getBlock emptyWorld ⟨0, 0, 0⟩ = BlockType.Air ∧
    getLight emptyWorld ⟨0, 0, 0⟩ = 0 ∧ getLight emptyWorld ⟨0, 0, 0⟩ ≠ 15 :=
  ⟨rfl, rfl, rfl, by decide⟩

/-- C4 (amended): a world position whose chunk is absent from the store
reads as Air with zero light: `getBlock` returns Air and `getLight` returns
0 (so a mesh face whose neighbor cell lies in an absent chunk gets
normalized brightness 0, not 1). -/
theorem C4_absent_chunk (w : World) (p : IVec3)
    (h : w.chunks (worldToChunkCoords p) = none) :
    getBlock w p = BlockType.Air ∧ getLight w p = 0 := by
  unfold getBlock getLight
  rw [h]
  exact ⟨rfl, rfl⟩

theorem C4_absent_chunk_witness :
    getBlock emptyWorld ⟨3, 4, 5⟩ = BlockType.Air ∧ getLight emptyWorld ⟨3, 4, 5⟩ = 0 :=
  C4_absent_chunk emptyWorld ⟨3, 4, 5⟩ rfl

/-- C9: when the stored voxel already equals the written id, `setBlock`
returns before mutating anything: the world — voxels, every chunk's
`needs_remeshing` flag, and all light values — is returned unchanged, and no
lighting queue is ever built. -/
theorem C9_setBlock_noop (w : World) (p : IVec3) (k : Nat) (c : Chunk)
    (hc : w.chunks (worldToChunkCoords p) = some c)
    (hk : c.blocks (localPos p (worldToChunkCoords p)) = k) :
    setBlock w p k = w := by
  unfold setBlock
  rw [hc]
  dsimp only
  split <;> rfl

theorem C9_setBlock_noop_witness :
    setBlock stoneWorld ⟨2, 0, 0⟩ BlockType.Stone = stoneWorld :=
  C9_setBlock_noop stoneWorld ⟨2, 0, 0⟩ BlockType.Stone stoneChunk rfl rfl

theorem lightFuel_cons (n : LightNode) (q : List LightNode) :
    lightFuel (n :: q) = 7 ^ n.level + lightFuel q := by
  simp [lightFuel]

theorem lightFuel_append (a b : List LightNode) :
    lightFuel (a ++ b) = lightFuel a + lightFuel b := by
  simp [lightFuel]

theorem lightFuel_le_of_levels {v : Nat} :
    ∀ l : List LightNode, (∀ m ∈ l, 7 ^ m.level ≤ v) → lightFuel l ≤ l.length * v := by
  intro l
  induction l with
  | nil => intro _; simp [lightFuel]
  | cons m t ih =>
    intro h
    rw [lightFuel_cons]
    have h1 := h m (by simp)
    have h2 := ih fun x hx => h x (by simp [hx])
    rw [List.length_cons, Nat.succ_mul]
    omega

/-- The queue after one neighbor sweep of `propagateLight` is the old queue
plus at most six pushed nodes, each carrying level `L - 1`. -/
theorem propagateFold_pushes (n : LightNode) :
    ∀ (offs : List IVec3) (w : World) (q : List LightNode),
      ∃ extra, (offs.foldl (propagateVisit n) (w, q)).2 = q ++ extra ∧
        extra.length ≤ offs.length ∧ ∀ m ∈ extra, m.level = n.level - 1 := by
  intro offs
  induction offs with
  | nil => exact fun w q => ⟨[], by simp, by simp, by simp⟩
  | cons off t ih =>
    intro w q
    rw [List.foldl_cons]
    by_cases h : isTransparent (getBlock w (n.pos + off)) = true ∧
        getLight w (n.pos + off) < n.level - 1
    · have hv : propagateVisit n (w, q) off =
          (setLight w (n.pos + off) (n.level - 1), q ++ [⟨n.pos + off, n.level - 1⟩]) := by
        simp [propagateVisit, h]
      rw [hv]
      obtain ⟨extra, he, hl, hm⟩ :=
        ih (setLight w (n.pos + off) (n.level - 1)) (q ++ [⟨n.pos + off, n.level - 1⟩])
      refine ⟨⟨n.pos + off, n.level - 1⟩ :: extra, ?_, ?_, ?_⟩
      · rw [he, List.append_assoc]; rfl
      · simp only [List.length_cons]; omega
      · intro m hm2
        rcases List.mem_cons.mp hm2 with h1 | h1
        · rw [h1]
        · exact hm m h1
    · have hv : propagateVisit n (w, q) off = (w, q) := by
        simp only [propagateVisit]
        rw [if_neg h]
      rw [hv]
      obtain ⟨extra, he, hl, hm⟩ := ih w q
      exact ⟨extra, he, by simp only [List.length_cons]; omega, hm⟩

/-- The removal queue after one neighbor sweep of `removeLight` is the old
queue plus at most six pushed nodes, each strictly darker than the popped
level. -/
theorem removeFold_pushes (n : LightNode) :
    ∀ (offs : List IVec3) (w : World) (q pq : List LightNode),
      ∃ extra, (offs.foldl (removeVisit n) (w, q, pq)).2.1 = q ++ extra ∧
        extra.length ≤ offs.length ∧ ∀ m ∈ extra, m.level < n.level := by
  intro offs
  induction offs with
  | nil => exact fun w q pq => ⟨[], by simp, by simp, by simp⟩
  | cons off t ih =>
    intro w q pq
    rw [List.foldl_cons]
    by_cases h1 : getLight w (n.pos + off) ≠ 0 ∧ getLight w (n.pos + off) < n.level
    · have hv : removeVisit n (w, q, pq) off =
          (setLight w (n.pos + off) 0, q ++ [⟨n.pos + off, getLight w (n.pos + off)⟩], pq) := by
        simp [removeVisit, h1]
      rw [hv]
      obtain ⟨extra, he, hl, hm⟩ := ih _ _ _
      refine ⟨⟨n.pos + off, getLight w (n.pos + off)⟩ :: extra, ?_, ?_, ?_⟩
      · rw [he, List.append_assoc]; rfl
      · simp only [List.length_cons]; omega
      · intro m hm2
        rcases List.mem_cons.mp hm2 with h2 | h2
        · rw [h2]; exact h1.2
        · exact hm m h2
    · by_cases h2 : n.level ≤ getLight w (n.pos + off)
      · have hv : removeVisit n (w, q, pq) off =
            (w, q, pq ++ [⟨n.pos + off, getLight w (n.pos + off)⟩]) := by
          simp only [removeVisit]
          rw [if_neg h1, if_pos h2]
        rw [hv]
        obtain ⟨extra, he, hl, hm⟩ := ih _ _ _
        exact ⟨extra, he, by simp only [List.length_cons]; omega, hm⟩
      · have hv : removeVisit n (w, q, pq) off = (w, q, pq) := by
          simp only [removeVisit]
          rw [if_neg h1, if_neg h2]
        rw [hv]
        obtain ⟨extra, he, hl, hm⟩ := ih _ _ _
        exact ⟨extra, he, by simp only [List.length_cons]; omega, hm⟩

theorem propagateLightAux_drains :
    ∀ (f : Nat) (w : World) (q : List LightNode), lightFuel q ≤ f →
      (propagateLightAux f w q).2 = [] := by
  intro f
  induction f with
  | zero =>
    intro w q hq
    cases q with
    | nil => rfl
    | cons n rest =>
      exfalso
      have h7 : 0 < 7 ^ n.level := pow_pos (by norm_num) _
      rw [lightFuel_cons] at hq
      omega
  | succ f ih =>
    intro w q hq
    cases q with
    | nil => rfl
    | cons n rest =>
      rw [lightFuel_cons] at hq
      have h7 : 0 < 7 ^ n.level := pow_pos (by norm_num) _
      by_cases hl : n.level ≤ 1
      · have hstep : propagateLightAux (f + 1) w (n :: rest) = propagateLightAux f w rest := by
          simp [propagateLightAux, hl]
        rw [hstep]
        exact ih w rest (by omega)
      · have hstep : propagateLightAux (f + 1) w (n :: rest) =
            propagateLightAux f (propagateNode w n rest).1 (propagateNode w n rest).2 := by
          simp [propagateLightAux, hl]
        rw [hstep]
        obtain ⟨extra, he, hlen, hmem⟩ := propagateFold_pushes n neighbors6 w rest
        have h6 : extra.length ≤ 6 := le_trans hlen (by simp [neighbors6])
        have hfe : lightFuel extra ≤ extra.length * 7 ^ (n.level - 1) :=
          lightFuel_le_of_levels extra fun m hm => by rw [hmem m hm]
        have hfe6 : lightFuel extra ≤ 6 * 7 ^ (n.level - 1) :=
          le_trans hfe (Nat.mul_le_mul_right _ h6)
        have hp : 7 ^ n.level = 7 ^ (n.level - 1) * 7 := by
          have hn : n.level = (n.level - 1) + 1 := by omega
          conv_lhs => rw [hn]
          rw [pow_succ]
        have ha : 0 < 7 ^ (n.level - 1) := pow_pos (by norm_num) _
        refine ih _ _ ?_
        have : (propagateNode w n rest).2 = rest ++ extra := he
        rw [this, lightFuel_append]
        omega

theorem removeLightAux_drains :
    ∀ (f : Nat) (w : World) (q pq : List LightNode), lightFuel q ≤ f →
      (removeLightAux f w q pq).2.1 = [] := by
  intro f
  induction f with
  | zero =>
    intro w q pq hq
    cases q with
    | nil => rfl
    | cons n rest =>
      exfalso
      have h7 : 0 < 7 ^ n.level := pow_pos (by norm_num) _
      rw [lightFuel_cons] at hq
      omega
  | succ f ih =>
    intro w q pq hq
    cases q with
    | nil => rfl
    | cons n rest =>
      rw [lightFuel_cons] at hq
      have hstep : removeLightAux (f + 1) w (n :: rest) pq =
          removeLightAux f (removeNode w n rest pq).1 (removeNode w n rest pq).2.1
            (removeNode w n rest pq).2.2 := by
        simp [removeLightAux]
      rw [hstep]
      obtain ⟨extra, he, hlen, hmem⟩ := removeFold_pushes n neighbors6 w rest pq
      have h6 : extra.length ≤ 6 := le_trans hlen (by simp [neighbors6])
      refine ih _ _ _ ?_
      have hq1 : (removeNode w n rest pq).2.1 = rest ++ extra := he
      rw [hq1, lightFuel_append]
      by_cases h0 : n.level = 0
      · have hempty : extra = [] := by
          rcases extra with _ | ⟨m, t⟩
          · rfl
          · exact absurd (hmem m (by simp)) (by omega)
        rw [hempty, show lightFuel ([] : List LightNode) = 0 from rfl]
        rw [h0, pow_zero] at hq
        omega
      · have hfe : lightFuel extra ≤ extra.length * 7 ^ (n.level - 1) :=
          lightFuel_le_of_levels extra fun m hm =>
            Nat.pow_le_pow_right (by norm_num) (by have := hmem m hm; omega)
        have hfe6 : lightFuel extra ≤ 6 * 7 ^ (n.level - 1) :=
          le_trans hfe (Nat.mul_le_mul_right _ h6)
        have hp : 7 ^ n.level = 7 ^ (n.level - 1) * 7 := by
          have hn : n.level = (n.level - 1) + 1 := by omega
          conv_lhs => rw [hn]
          rw [pow_succ]
        have ha : 0 < 7 ^ (n.level - 1) := pow_pos (by norm_num) _
        omega

/-- C10: both light-engine loops terminate.  Run with the chosen fuel
(the sum of `7 ^ level` over the queue, which strictly decreases at every
iteration because a popped node of level `L` pushes at most six nodes of
level `L - 1` in propagation, and at most six strictly darker nodes in
removal), the propagation loop and the removal loop always empty their
queues — for every world, resident store and initial queue. -/
theorem C10_light_loops_terminate :
    (∀ (w : World) (q : List LightNode), (propagateLightAux (lightFuel q) w q).2 = []) ∧
    (∀ (w : World) (q pq : List LightNode),
      (removeLightAux (lightFuel q) w q pq).2.1 = []) :=
  ⟨fun w q => propagateLightAux_drains (lightFuel q) w q le_rfl,
   fun w q pq => removeLightAux_drains (lightFuel q) w q pq le_rfl⟩

theorem localPos_inj (p r cc : IVec3) (h : localPos r cc = localPos p cc) : r = p := by
  cases p; cases r; cases cc
  simp only [localPos, IVec3.mk.injEq] at h ⊢
  omega

/-- `setLight` never changes any block. -/
theorem getBlock_setLight (w : World) (p : IVec3) (v : Nat) (r : IVec3) :
    getBlock (setLight w p v) r = getBlock w r := by
  unfold setLight
  cases hc : w.chunks (worldToChunkCoords p) with
  | none => rfl
  | some c =>
    dsimp only
    split_ifs with h1 h2
    · unfold getBlock World.setChunk
      dsimp only
      by_cases hcc : worldToChunkCoords r = worldToChunkCoords p
      · rw [hcc, hc, if_pos rfl]
      · rw [if_neg hcc]
    · rfl
    · rfl

/-- `setLight` changes the light of no cell other than its target. -/
theorem getLight_setLight_ne (w : World) (p : IVec3) (v : Nat) (r : IVec3)
    (hrp : r ≠ p) : getLight (setLight w p v) r = getLight w r := by
  unfold setLight
  cases hc : w.chunks (worldToChunkCoords p) with
  | none => rfl
  | some c =>
    dsimp only
    split_ifs with h1 h2
    · unfold getLight World.setChunk
      dsimp only
      by_cases hcc : worldToChunkCoords r = worldToChunkCoords p
      · rw [hcc, hc, if_pos rfl]
        dsimp only
        have hne : localPos r (worldToChunkCoords p) ≠ localPos p (worldToChunkCoords p) :=
          fun he => hrp (localPos_inj p r (worldToChunkCoords p) he)
        split_ifs with hb <;> rfl
      · rw [if_neg hcc]
    · rfl
    · rfl

/-- The neighbor sweep of `propagateLight` leaves the light of every cell
outside the six neighbor positions untouched. -/
theorem propagateFold_frame (n : LightNode) (r : IVec3) :
    ∀ (offs : List IVec3) (s : World × List LightNode),
      (∀ off ∈ offs, r ≠ n.pos + off) →
      getLight (offs.foldl (propagateVisit n) s).1 r = getLight s.1 r := by
  intro offs
  induction offs with
  | nil => intro s _; rfl
  | cons off t ih =>
    intro s hr
    rw [List.foldl_cons]
    rw [ih (propagateVisit n s off) fun o ho => hr o (by simp [ho])]
    unfold propagateVisit
    dsimp only
    split_ifs with h
    · exact getLight_setLight_ne s.1 (n.pos + off) (n.level - 1) r (hr off (by simp))
    · rfl

/-- The neighbor sweep of `propagateLight` changes no block anywhere. -/
theorem propagateFold_blocks (n : LightNode) (r : IVec3) :
    ∀ (offs : List IVec3) (s : World × List LightNode),
      getBlock (offs.foldl (propagateVisit n) s).1 r = getBlock s.1 r := by
  intro offs
  induction offs with
  | nil => intro s; rfl
  | cons off t ih =>
    intro s
    rw [List.foldl_cons]
    rw [ih (propagateVisit n s off)]
    unfold propagateVisit
    dsimp only
    split_ifs with h
    · exact getBlock_setLight s.1 (n.pos + off) (n.level - 1) r
    · rfl

/-- Modelled from the spec propagation-step sentence (one neighbor): if the
neighbor `q` is transparent and `light(q) < L - 1`, set `light(q) ← L - 1`
and enqueue `(q, L - 1)`. -/
def propagateVisitSpec (n : LightNode) (s : World × List LightNode) (off : IVec3) :
    World × List LightNode :=
  let np := n.pos + off
  if isTransparent (getBlock s.1 np) = true ∧ getLight s.1 np < n.level - 1 then
    (setLight s.1 np (n.level - 1), s.2 ++ [⟨np, n.level - 1⟩])
  else s

/-- Modelled from the spec propagation-step sentence: visit the six face
neighbors of the popped node in order. -/
def propagateNodeSpec (w : World) (n : LightNode) (rest : List LightNode) :
    World × List LightNode :=
  neighbors6.foldl (propagateVisitSpec n) (w, rest)

/-- Modelled from the spec propagation-step sentence: while the queue is
non-empty, pop `(p, L)`; if `L ≤ 1` skip; otherwise process the six
neighbors. -/
def propagateLightSpecAux : Nat → World → List LightNode → World × List LightNode
  | 0, w, q => (w, q)
  | _ + 1, w, [] => (w, [])
  | f + 1, w, n :: rest =>
    if n.level ≤ 1 then propagateLightSpecAux f w rest
    else
      let s := propagateNodeSpec w n rest
      propagateLightSpecAux f s.1 s.2

/-- C5: the implementation's propagation loop computes exactly the BFS the
spec describes — the loop agrees step for step with the spec-modelled loop —
and one popped node modifies the light of no cell beyond its six face
neighbors and modifies no block at all. -/
theorem C5_propagation_step_exact :
    (∀ (f : Nat) (w : World) (q : List LightNode),
        propagateLightAux f w q = propagateLightSpecAux f w q) ∧
    (∀ (n : LightNode) (w : World) (rest : List LightNode) (r : IVec3),
        (∀ off ∈ neighbors6, r ≠ n.pos + off) →
        getLight (propagateNode w n rest).1 r = getLight w r) ∧
    (∀ (n : LightNode) (w : World) (rest : List LightNode) (r : IVec3),
        getBlock (propagateNode w n rest).1 r = getBlock w r) := by
  refine ⟨?_, ?_, ?_⟩
  · intro f
    induction f with
    | zero => intro w q; rfl
    | succ f ih =>
      intro w q
      cases q with
      | nil => rfl
      | cons n rest =>
        have hnode : propagateNodeSpec = propagateNode := rfl
        by_cases hl : n.level ≤ 1
        · simp only [propagateLightAux, propagateLightSpecAux, if_pos hl]
          exact ih w rest
        · simp only [propagateLightAux, propagateLightSpecAux, if_neg hl, hnode]
          exact ih _ _
  · intro n w rest r hr
    exact propagateFold_frame n r neighbors6 (w, rest) hr
  · intro n w rest r
    exact propagateFold_blocks n r neighbors6 (w, rest)

theorem C5_propagation_step_exact_witness :
    getLight (propagateNode emptyWorld ⟨⟨0, 0, 0⟩, 15⟩ []).1 ⟨5, 5, 5⟩ =
      getLight emptyWorld ⟨5, 5, 5⟩ :=
  C5_propagation_step_exact.2.1 ⟨⟨0, 0, 0⟩, 15⟩ emptyWorld [] ⟨5, 5, 5⟩ (by decide)

/-- A single all-Air chunk whose every cell carries full skylight 15 —
exactly the state initial seeding plus propagation produces on a one-chunk
world of empty terrain. -/
def litChunk : Chunk := ⟨fun _ => BlockType.Air, fun _ => 15, false⟩

/-- The store holding only `litChunk`, at chunk key (0, 0, 0). -/
def litWorld : World := ⟨fun cc => if cc = ⟨0, 0, 0⟩ then some litChunk else none⟩

/-- C1 fails on the code: place Stone at (8, 8, 8) of the fully sunlit
world and run the lighting work to completion.  The cell (8, 7, 8) below the
new block is transparent and no longer sky-exposed, so the claimed invariant
demands light `max(max_over_neighbors - 1, 0) = 14`; but `removeLight`
re-seeds from any neighbor with `neighbor_light >= light_level`, which keeps
the whole former sunlight column below the placed block at 15. -/
theorem C1_sunlight_column_bug :
    isTransparent (getBlock (setBlock litWorld ⟨8, 8, 8⟩ BlockType.Stone) ⟨8, 7, 8⟩) = true ∧
    exposedToSky (setBlock litWorld ⟨8, 8, 8⟩ BlockType.Stone) ⟨8, 7, 8⟩ = false ∧
    getLight (setBlock litWorld ⟨8, 8, 8⟩ BlockType.Stone) ⟨8, 7, 8⟩ = 15 ∧
    maxNeighborLight (setBlock litWorld ⟨8, 8, 8⟩ BlockType.Stone) ⟨8, 7, 8⟩ = 15 ∧
    getLight (setBlock litWorld ⟨8, 8, 8⟩ BlockType.Stone) ⟨8, 7, 8⟩ ≠
      Nat.max (maxNeighborLight (setBlock litWorld ⟨8, 8, 8⟩ BlockType.Stone) ⟨8, 7, 8⟩ - 1) 0 := by
  decide

/-- Rational 3-vector, embedding `glm::vec3` (exact arithmetic stands in for
`float`; every mesh coordinate is a small dyadic-or-fifth rational, computed
exactly). -/
structure Vec3Q where
  x : Rat
  y : Rat
  z : Rat
deriving DecidableEq

instance : Add Vec3Q := ⟨fun a b => ⟨a.x + b.x, a.y + b.y, a.z + b.z⟩⟩

/-- `struct Vertex`: position, texture coordinates, light level. -/
structure Vertex where
  position : Vec3Q
  u : Rat
  v : Rat
  lightLevel : Rat
deriving DecidableEq

/-- The `face_vertices[6][4]` table of `buildChunkMesh`
(openglwindow.cpp:1251-1258): front +z, back -z, top +y, bottom -y,
right +x, left -x. -/
def faceVertex : Nat → Nat → Vec3Q
  | 0, 0 => ⟨0, 0, 1⟩
  | 0, 1 => ⟨1, 0, 1⟩
  | 0, 2 => ⟨1, 1, 1⟩
  | 0, _ => ⟨0, 1, 1⟩
  | 1, 0 => ⟨1, 0, 0⟩
  | 1, 1 => ⟨0, 0, 0⟩
  | 1, 2 => ⟨0, 1, 0⟩
  | 1, _ => ⟨1, 1, 0⟩
  | 2, 0 => ⟨0, 1, 1⟩
  | 2, 1 => ⟨1, 1, 1⟩
  | 2, 2 => ⟨1, 1, 0⟩
  | 2, _ => ⟨0, 1, 0⟩
  | 3, 0 => ⟨0, 0, 0⟩
  | 3, 1 => ⟨1, 0, 0⟩
  | 3, 2 => ⟨1, 0, 1⟩
  | 3, _ => ⟨0, 0, 1⟩
  | 4, 0 => ⟨1, 0, 1⟩
  | 4, 1 => ⟨1, 0, 0⟩
  | 4, 2 => ⟨1, 1, 0⟩
  | 4, _ => ⟨1, 1, 1⟩
  | _, 0 => ⟨0, 0, 0⟩
  | _, 1 => ⟨0, 0, 1⟩
  | _, 2 => ⟨0, 1, 1⟩
  | _, _ => ⟨0, 1, 0⟩

/-- The `neighbors[6]` table of `buildChunkMesh` (same order as
`neighbors6`), indexed by the face loop counter `i`. -/
def neighborOffset : Nat → IVec3
  | 0 => ⟨0, 0, 1⟩
  | 1 => ⟨0, 0, -1⟩
  | 2 => ⟨0, 1, 0⟩
  | 3 => ⟨0, -1, 0⟩
  | 4 => ⟨1, 0, 0⟩
  | _ => ⟨-1, 0, 0⟩

/-- The face-culling rule of `buildChunkMesh` (openglwindow.cpp:1276-1285):
Water draws against any non-Water neighbor; every other (non-Air) block
draws against a transparent (Air or Water) neighbor. -/
def shouldDrawFace (block_id neighbor_id : Nat) : Bool :=
  if block_id = BlockType.Water then neighbor_id != BlockType.Water
  else neighbor_id == BlockType.Water || neighbor_id == BlockType.Air

/-- The texture-index switch of `buildChunkMesh` (openglwindow.cpp:1288-1301);
`none` is the `default: continue` case that emits nothing. -/
def textureIndexFor (block_id i : Nat) : Option Nat :=
  if block_id = BlockType.Stone then some 0
  else if block_id = BlockType.Dirt then some 1
  else if block_id = BlockType.Grass then
    if i = 2 then some 2 else if i = 3 then some 1 else some 3
  else if block_id = BlockType.Water then some 4
  else none

/-- Emission of one face of one voxel by `buildChunkMesh`
(openglwindow.cpp:1271-1335): cull test, texture lookup, light from the
neighbor cell, water top-surface lowering by 0.2 when the block above is
Air, then two triangles (v0 v1 v2, v0 v2 v3) appended to the transparent
stream for Water and to the opaque stream otherwise. -/
def meshFace (w : World) (cc bp : IVec3) (block_id i : Nat)
    (acc : List Vertex × List Vertex) : List Vertex × List Vertex :=
  let nwp := cc.smul CHUNK_SIZE + bp + neighborOffset i
  let nid := getBlock w nwp
  if shouldDrawFace block_id nid = true then
    match textureIndexFor block_id i with
    | none => acc
    | some t =>
      let u_offset : Rat := t * (1 / 5)
      let light_level : Rat := (getLight w nwp : Rat) / 15
      let base : Vec3Q := ⟨bp.x, bp.y, bp.z⟩
      let lowerTop : Bool :=
        block_id == BlockType.Water &&
          getBlock w (cc.smul CHUNK_SIZE + bp + ⟨0, 1, 0⟩) == BlockType.Air
      let mkv : Nat → Rat → Rat → Vertex := fun k uq vq =>
        let fv := faceVertex i k
        let pos := base + fv
        let pos2 := if lowerTop && (fv.y == 1) then ⟨pos.x, pos.y - 1/5, pos.z⟩ else pos
        ⟨pos2, uq, vq, light_level⟩
      let v0 := mkv 0 u_offset 0
      let v1 := mkv 1 (u_offset + 1/5) 0
      let v2 := mkv 2 (u_offset + 1/5) 1
      let v3 := mkv 3 u_offset 1
      if block_id == BlockType.Water then
        (acc.1, acc.2 ++ [v0, v1, v2, v0, v2, v3])
      else
        (acc.1 ++ [v0, v1, v2, v0, v2, v3], acc.2)
  else acc

/-- `OpenGLWindow::buildChunkMesh` (openglwindow.cpp:1244-1346): sweep the
16 x 16 x 16 cells in x, y, z order, skip Air, and emit the six faces of
every other voxel through `meshFace`; returns (opaque, transparent)
vertex streams. -/
def buildChunkMesh (w : World) (c : Chunk) (cc : IVec3) : List Vertex × List Vertex :=
  (List.range 16).foldl (fun acc x =>
    (List.range 16).foldl (fun acc y =>
      (List.range 16).foldl (fun acc z =>
        let bp : IVec3 := ⟨(x : Int), (y : Int), (z : Int)⟩
        let block_id := c.blocks bp
        if block_id = BlockType.Air then acc
        else (List.range 6).foldl (fun acc i => meshFace w cc bp block_id i acc) acc)
        acc) acc) ([], [])

/-- A chunk holding a lone Water voxel at local (8, 8, 8) in Air. -/
def waterChunk : Chunk :=
  ⟨fun l => if l = ⟨8, 8, 8⟩ then BlockType.Water else BlockType.Air, fun _ => 15, false⟩

/-- The store holding only `waterChunk`, at chunk key (0, 0, 0). -/
def waterWorld : World := ⟨fun cc => if cc = ⟨0, 0, 0⟩ then some waterChunk else none⟩

/-- C6: a lone Water voxel surrounded by Air meshes to exactly 36 vertices
(6 faces, 12 triangles) in the transparent stream and none in the opaque
stream; because the voxel above is Air, every emitted vertex whose template
y coordinate is 1 sits at 8.8 = 9 - 0.2 (18 of the 36) and the rest at 8,
so no vertex reaches y = 9.  In general, Water emits a face exactly against
non-Water neighbors, and Stone, Dirt and Grass (the non-Water, non-Air
voxels) emit a face exactly against transparent (Air or Water) neighbors. -/
theorem C6_water_mesh :
    (buildChunkMesh waterWorld waterChunk ⟨0, 0, 0⟩).2.length = 36 ∧
    (buildChunkMesh waterWorld waterChunk ⟨0, 0, 0⟩).1 = [] ∧
    ((buildChunkMesh waterWorld waterChunk ⟨0, 0, 0⟩).2.all fun v =>
      v.position.y == 8 || v.position.y == 44/5) = true ∧
    ((buildChunkMesh waterWorld waterChunk ⟨0, 0, 0⟩).2.filter fun v =>
      v.position.y == (44/5 : Rat)).length = 18 ∧
    (∀ n : Nat, shouldDrawFace BlockType.Water n = !(n == BlockType.Water)) ∧
    (∀ n : Nat, shouldDrawFace BlockType.Stone n = (n == BlockType.Water || n == BlockType.Air)) ∧
    (∀ n : Nat, shouldDrawFace BlockType.Dirt n = (n == BlockType.Water || n == BlockType.Air)) ∧
    (∀ n : Nat, shouldDrawFace BlockType.Grass n = (n == BlockType.Water || n == BlockType.Air)) :=
  ⟨by decide, by decide, by with_unfolding_all decide, by with_unfolding_all decide,
   fun _ => rfl, fun _ => rfl, fun _ => rfl, fun _ => rfl⟩

/-- `glm::sign` on one float component, as the integer step of the DDA. -/
def stepDir (v : Rat) : Int :=
  if 0 < v then 1 else if v < 0 then -1 else 0

/-- The mutable state of the `raycast` loop: current cell and the three
per-axis `t_max` values. -/
structure RayState where
  pos : IVec3
  tMax : Vec3Q

/-- One DDA step of `raycast` (openglwindow.cpp:1227-1233): advance along
the axis with the smallest `t_max` (x beats y beats z on ties exactly as the
nested comparisons do) and bump that axis's `t_max` by `t_delta`. -/
def rayStep (step : IVec3) (tDelta : Vec3Q) (s : RayState) : RayState :=
  if s.tMax.x < s.tMax.y then
    if s.tMax.x < s.tMax.z then
      ⟨⟨s.pos.x + step.x, s.pos.y, s.pos.z⟩, ⟨s.tMax.x + tDelta.x, s.tMax.y, s.tMax.z⟩⟩
    else
      ⟨⟨s.pos.x, s.pos.y, s.pos.z + step.z⟩, ⟨s.tMax.x, s.tMax.y, s.tMax.z + tDelta.z⟩⟩
  else
    if s.tMax.y < s.tMax.z then
      ⟨⟨s.pos.x, s.pos.y + step.y, s.pos.z⟩, ⟨s.tMax.x, s.tMax.y + tDelta.y, s.tMax.z⟩⟩
    else
      ⟨⟨s.pos.x, s.pos.y, s.pos.z + step.z⟩, ⟨s.tMax.x, s.tMax.y, s.tMax.z + tDelta.z⟩⟩

/-- The `for (int i = 0; i < 100; ++i)` loop of `raycast`
(openglwindow.cpp:1224-1240): remember the current cell as `last_pos`, step,
and return `(current, last)` at the first non-Air cell. -/
def raycastAux (w : World) (step : IVec3) (tDelta : Vec3Q) :
    Nat → RayState → Option (IVec3 × IVec3)
  | 0, _ => none
  | f + 1, s =>
    let s2 := rayStep step tDelta s
    if getBlock w s2.pos ≠ BlockType.Air then some (s2.pos, s.pos)
    else raycastAux w step tDelta f s2

/-- `glm::sign(ray_direction)` as an integer vector. -/
def rayStepOf (dir : Vec3Q) : IVec3 := ⟨stepDir dir.x, stepDir dir.y, stepDir dir.z⟩

/-- `t_delta = 1.0f / glm::abs(ray_direction)`.  The rational model has no
infinities, so theorems about `raycast` assume every direction component is
nonzero (a zero component makes the C++ compute with `inf`/`NaN`, which the
exact model does not represent). -/
def rayTDelta (dir : Vec3Q) : Vec3Q := ⟨1 / |dir.x|, 1 / |dir.y|, 1 / |dir.z|⟩

/-- The starting state of `raycast` (openglwindow.cpp:1213-1222): the cell
containing the eye, and the distance to the first grid plane on each axis,
scaled by `t_delta`.  `Rat.floor` is the integer floor `glm::floor`
computes. -/
def rayInit (origin dir : Vec3Q) : RayState :=
  let cur : IVec3 := ⟨Rat.floor origin.x, Rat.floor origin.y, Rat.floor origin.z⟩
  let tDelta := rayTDelta dir
  ⟨cur,
   ⟨if 0 < dir.x then ((cur.x : Rat) + 1 - origin.x) * tDelta.x
      else (origin.x - (cur.x : Rat)) * tDelta.x,
    if 0 < dir.y then ((cur.y : Rat) + 1 - origin.y) * tDelta.y
      else (origin.y - (cur.y : Rat)) * tDelta.y,
    if 0 < dir.z then ((cur.z : Rat) + 1 - origin.z) * tDelta.z
      else (origin.z - (cur.z : Rat)) * tDelta.z⟩⟩

/-- `OpenGLWindow::raycast` (openglwindow.cpp:1207-1242), with the eye
position and view direction as parameters; `none` is the `return false`
path, `some (hit, adjacent)` the `return true` path. -/
def raycast (w : World) (origin dir : Vec3Q) : Option (IVec3 × IVec3) :=
  if dir.x ^ 2 + dir.y ^ 2 + dir.z ^ 2 < 1 / 10000 then none
  else raycastAux w (rayStepOf dir) (rayTDelta dir) 100 (rayInit origin dir)

/-- The DDA visits cells one axis-aligned step at a time. -/
theorem rayStep_pos (step : IVec3) (tDelta : Vec3Q) (s : RayState) :
    (rayStep step tDelta s).pos = ⟨s.pos.x + step.x, s.pos.y, s.pos.z⟩ ∨
    (rayStep step tDelta s).pos = ⟨s.pos.x, s.pos.y + step.y, s.pos.z⟩ ∨
    (rayStep step tDelta s).pos = ⟨s.pos.x, s.pos.y, s.pos.z + step.z⟩ := by
  unfold rayStep
  split_ifs <;> simp

/-- Complete characterization of the bounded raycast loop: a hit is the
first stepped-into non-Air cell, together with the cell visited just before
it; a miss means all stepped-into cells within the bound are Air. -/
theorem raycastAux_spec (w : World) (step : IVec3) (tDelta : Vec3Q) :
    ∀ (f : Nat) (s : RayState),
      (∀ h a, raycastAux w step tDelta f s = some (h, a) →
        ∃ k, k < f ∧ h = ((rayStep step tDelta)^[k + 1] s).pos ∧
          a = ((rayStep step tDelta)^[k] s).pos ∧ getBlock w h ≠ BlockType.Air ∧
          ∀ j, j ≤ k → 1 ≤ j →
            getBlock w (((rayStep step tDelta)^[j] s).pos) = BlockType.Air) ∧
      (raycastAux w step tDelta f s = none ↔
        ∀ k, k ≤ f → 1 ≤ k →
          getBlock w (((rayStep step tDelta)^[k] s).pos) = BlockType.Air) := by
  intro f
  induction f with
  | zero =>
    intro s
    constructor
    · intro h a habs
      exact absurd habs (by simp [raycastAux])
    · constructor
      · intro _ k h1 h2
        omega
      · intro _
        rfl
  | succ f ih =>
    intro s
    have hiter1 : (rayStep step tDelta)^[1] s = rayStep step tDelta s :=
      Function.iterate_one (rayStep step tDelta) ▸ rfl
    by_cases hb : getBlock w (rayStep step tDelta s).pos ≠ BlockType.Air
    · have heq : raycastAux w step tDelta (f + 1) s =
          some ((rayStep step tDelta s).pos, s.pos) := by
        simp only [raycastAux]
        rw [if_pos hb]
      constructor
      · intro h a hsome
        rw [heq, Option.some.injEq, Prod.mk.injEq] at hsome
        refine ⟨0, by omega, ?_, ?_, ?_, ?_⟩
        · rw [← hsome.1, hiter1]
        · rw [← hsome.2, Function.iterate_zero_apply]
        · rw [← hsome.1]; exact hb
        · intro j h1 h2; omega
      · rw [heq]
        constructor
        · intro habs
          exact absurd habs (by simp)
        · intro hall
          exact absurd (hall 1 (by omega) le_rfl) (by rw [hiter1]; exact hb)
    · rw [not_not] at hb
      have heq : raycastAux w step tDelta (f + 1) s =
          raycastAux w step tDelta f (rayStep step tDelta s) := by
        simp only [raycastAux]
        rw [if_neg (by rw [not_not]; exact hb)]
      obtain ⟨ihsome, ihnone⟩ := ih (rayStep step tDelta s)
      constructor
      · intro h a hsome
        rw [heq] at hsome
        obtain ⟨k, hk, hh, ha, hair, hall⟩ := ihsome h a hsome
        refine ⟨k + 1, by omega, ?_, ?_, hair, ?_⟩
        · rw [hh, ← Function.iterate_succ_apply]
        · rw [ha, ← Function.iterate_succ_apply]
        · intro j h1 h2
          rcases Nat.eq_or_lt_of_le h2 with h2e | h2l
          · rw [← h2e, hiter1]
            exact hb
          · have hj : j - 1 + 1 = j := by omega
            rw [← hj, Function.iterate_succ_apply]
            exact hall (j - 1) (by omega) (by omega)
      · rw [heq, ihnone]
        constructor
        · intro hall k h1 h2
          rcases Nat.eq_or_lt_of_le h2 with h2e | h2l
          · rw [← h2e, hiter1]
            exact hb
          · have hk2 : k - 1 + 1 = k := by omega
            rw [← hk2, Function.iterate_succ_apply]
            exact hall (k - 1) (by omega) (by omega)
        · intro hall k h1 h2
          have hs := hall (k + 1) (by omega) (by omega)
          rw [Function.iterate_succ_apply] at hs
          exact hs

/-- The cell sequence the raycast walks for a given direction: `k` DDA steps
from a start state. -/
def rayIter (dir : Vec3Q) (k : Nat) (s : RayState) : RayState :=
  (rayStep (rayStepOf dir) (rayTDelta dir))^[k] s

/-- C8: the raycaster steps through at most 100 cells.  On success the hit
is the first stepped-into non-Air cell (every earlier stepped cell is Air,
the eye cell itself is never tested), the adjacent cell is the cell visited
immediately before it, and hit and adjacent differ by exactly one signed
unit axis step — in particular, for a ray that enters the hit cell through
its -X face (an x step with positive direction), adjacent = hit + (-1,0,0).
Failure is returned exactly when all 100 stepped cells are Air.  Stated for
directions with all components nonzero, where the exact rational model
agrees with the float DDA (a zero component would make the C++ compute with
infinities). -/
theorem C8_raycast (w : World) (origin dir : Vec3Q)
    (_hx : dir.x ≠ 0) (_hy : dir.y ≠ 0) (_hz : dir.z ≠ 0)
    (hlen : ¬(dir.x ^ 2 + dir.y ^ 2 + dir.z ^ 2 < 1 / 10000)) :
    (∀ h a, raycast w origin dir = some (h, a) →
      (∃ k, k < 100 ∧ h = (rayIter dir (k + 1) (rayInit origin dir)).pos ∧
        a = (rayIter dir k (rayInit origin dir)).pos ∧
        getBlock w h ≠ BlockType.Air ∧
        ∀ j, j ≤ k → 1 ≤ j →
          getBlock w ((rayIter dir j (rayInit origin dir)).pos) = BlockType.Air) ∧
      (h = ⟨a.x + stepDir dir.x, a.y, a.z⟩ ∨ h = ⟨a.x, a.y + stepDir dir.y, a.z⟩ ∨
        h = ⟨a.x, a.y, a.z + stepDir dir.z⟩)) ∧
    (raycast w origin dir = none ↔
      ∀ k, k ≤ 100 → 1 ≤ k →
        getBlock w ((rayIter dir k (rayInit origin dir)).pos) = BlockType.Air) := by
  have hrc : raycast w origin dir =
      raycastAux w (rayStepOf dir) (rayTDelta dir) 100 (rayInit origin dir) := by
    unfold raycast
    rw [if_neg hlen]
  obtain ⟨hsome, hnone⟩ :=
    raycastAux_spec w (rayStepOf dir) (rayTDelta dir) 100 (rayInit origin dir)
  constructor
  · intro h a hs
    rw [hrc] at hs
    obtain ⟨k, hk, hh, ha, hair, hall⟩ := hsome h a hs
    refine ⟨⟨k, hk, hh, ha, hair, hall⟩, ?_⟩
    have hstep := rayStep_pos (rayStepOf dir) (rayTDelta dir)
      ((rayStep (rayStepOf dir) (rayTDelta dir))^[k] (rayInit origin dir))
    rw [Function.iterate_succ_apply'] at hh
    rw [hh, ha]
    rcases hstep with h1 | h1 | h1
    · left; rw [h1]; rfl
    · right; left; rw [h1]; rfl
    · right; right; rw [h1]; rfl
  · rw [hrc]
    exact hnone

theorem C8_raycast_witness :
    raycast emptyWorld ⟨1/2, 1/2, 1/2⟩ ⟨1, 1/100, 1/100⟩ = none :=
  (C8_raycast emptyWorld ⟨1/2, 1/2, 1/2⟩ ⟨1, 1/100, 1/100⟩
      (by with_unfolding_all decide) (by with_unfolding_all decide)
      (by with_unfolding_all decide) (by with_unfolding_all decide)).2.mpr
    (by with_unfolding_all decide)

/-- `PLAYER_HEIGHT = 1.8f` (openglwindow.cpp:15). -/
def PLAYER_HEIGHT : Rat := 9/5

/-- `PLAYER_WIDTH = 0.6f` (openglwindow.cpp:16). -/
def PLAYER_WIDTH : Rat := 3/5

/-- `struct AABB` (openglwindow.h:71). -/
structure AABB where
  min : Vec3Q
  max : Vec3Q

/-- `OpenGLWindow::getPlayerAABB` (openglwindow.cpp:798-805). -/
def getPlayerAABB (position : Vec3Q) : AABB :=
  ⟨⟨position.x - PLAYER_WIDTH / 2, position.y, position.z - PLAYER_WIDTH / 2⟩,
   ⟨position.x + PLAYER_WIDTH / 2, position.y + PLAYER_HEIGHT, position.z + PLAYER_WIDTH / 2⟩⟩

/-- The axis-aligned box of the voxel cell `(x, y, z)`
(`{glm::vec3(x, y, z), glm::vec3(x+1, y+1, z+1)}`). -/
def blockBox (x y z : Int) : AABB :=
  ⟨⟨x, y, z⟩, ⟨(x : Rat) + 1, (y : Rat) + 1, (z : Rat) + 1⟩⟩

/-- The solidity test of `resolveCollisions`:
`block_type != BlockType::Air && block_type != BlockType::Water`. -/
def isSolid (id : Nat) : Bool :=
  !(id == BlockType.Air) && !(id == BlockType.Water)

/-- The six-comparison AABB overlap test of `resolveCollisions`
(openglwindow.cpp:821-823). -/
def overlaps (a b : AABB) : Prop :=
  a.max.x > b.min.x ∧ a.min.x < b.max.x ∧
  a.max.y > b.min.y ∧ a.min.y < b.max.y ∧
  a.max.z > b.min.z ∧ a.min.z < b.max.z

instance (a b : AABB) : Decidable (overlaps a b) := by
  unfold overlaps; infer_instance

/-- The X-pass body of `resolveCollisions` for one visited cell
(openglwindow.cpp:818-828): on a solid, overlapping cell, snap `position.x`
to the face of the block (shrinking the box out of the overlap) when the
displacement is nonzero. -/
def collideCellX (w : World) (velx : Rat) (x y z : Int) (position : Vec3Q) : Vec3Q :=
  if isSolid (getBlock w ⟨x, y, z⟩) = true then
    if overlaps (getPlayerAABB position) (blockBox x y z) then
      if 0 < velx then ⟨(x : Rat) - PLAYER_WIDTH / 2 - 1/10000, position.y, position.z⟩
      else if velx < 0 then
        ⟨(x : Rat) + 1 + PLAYER_WIDTH / 2 + 1/10000, position.y, position.z⟩
      else position
    else position
  else position

/-- A C-style `for (int i = lo; i <= hi(state); ++i)` loop: the lower bound
is fixed at entry and the upper bound is re-evaluated from the current state
before every iteration, exactly as the collision loops re-read the
re-assigned `player_box`.  The fuel only serves to make the recursion
structural; every run the theorems below describe exits through the loop
condition long before exhausting it. -/
def forLoopQ {α : Type} (body : Int → α → α) (hi : α → Int) :
    Nat → Int → α → α
  | 0, _, s => s
  | f + 1, i, s => if i ≤ hi s then forLoopQ body hi f (i + 1) (body i s) else s

/-- The X pass of `OpenGLWindow::resolveCollisions` (openglwindow.cpp:812-832):
apply the x displacement, then sweep the cells of the player box in
y-outer, x, z-inner order, re-reading the box bounds as the position is
snapped.  Velocity is read only; no velocity component is written in this
pass (the `m_player_velocity.y = 0` write lives in the later Y pass). -/
def resolveCollisionsX (w : World) (position velocity : Vec3Q) (F : Nat) : Vec3Q :=
  let p1 : Vec3Q := ⟨position.x + velocity.x, position.y, position.z⟩
  forLoopQ
    (fun y s =>
      forLoopQ
        (fun x s2 =>
          forLoopQ (fun z s3 => collideCellX w velocity.x x y z s3)
            (fun s3 => Rat.floor (getPlayerAABB s3).max.z) F
            (Rat.floor (getPlayerAABB s2).min.z) s2)
        (fun s2 => Rat.floor (getPlayerAABB s2).max.x) F
        (Rat.floor (getPlayerAABB s).min.x) s)
    (fun s => Rat.floor (getPlayerAABB s).max.y) F
    (Rat.floor (getPlayerAABB p1).min.y) p1

theorem ratFloor_eq (q : Rat) : Rat.floor q = ⌊q⌋ := by
  rw [Rat.floor_def']
  rw [Rat.floor_def]

/-- A loop whose body fixes the state returns the state unchanged. -/
theorem forLoopQ_id {α : Type} (body : Int → α → α) (hi : α → Int) (s : α)
    (i0 : Int) (h : ∀ i, i0 ≤ i → body i s = s) :
    ∀ (f : Nat) (i : Int), i0 ≤ i → forLoopQ body hi f i s = s := by
  intro f
  induction f with
  | zero => intro i _; rfl
  | succ f ih =>
    intro i hi0
    simp only [forLoopQ]
    by_cases hc : i ≤ hi s
    · rw [if_pos hc, h i hi0]
      exact ih (i + 1) (by omega)
    · rw [if_neg hc]

/-- A loop whose body is the identity except at index `b` computes exactly
the body at `b`, provided `b` lies within the initial bounds and the fuel
covers the prefix. -/
theorem forLoopQ_single {α : Type} (body : Int → α → α) (hi : α → Int) (s : α)
    (b : Int) (hid : ∀ i, i ≠ b → ∀ t, body i t = t) (hhi : b ≤ hi s) :
    ∀ (f : Nat) (lo : Int), lo ≤ b → (b - lo).toNat + 1 ≤ f →
      forLoopQ body hi f lo s = body b s := by
  intro f
  induction f with
  | zero => intro lo h1 h2; omega
  | succ f ih =>
    intro lo h1 h2
    by_cases heq : lo = b
    · subst heq
      simp only [forLoopQ]
      rw [if_pos hhi]
      exact forLoopQ_id body hi (body lo s) (lo + 1)
        (fun i hi1 => hid i (by omega) (body lo s)) f (lo + 1) le_rfl
    · have hlb : lo < b := lt_of_le_of_ne h1 heq
      simp only [forLoopQ]
      rw [if_pos (le_trans (le_of_lt hlb) hhi), hid lo (by omega) s]
      exact ih (lo + 1) (by omega) (by omega)

/-- Core of the X pass with a single solid cell `b`: starting from the
already-shifted position `s0` whose box overlaps `b`, the sweep reaches `b`
with the position untouched (all earlier cells are non-solid), snaps
`position.x` to the block face, and changes nothing afterwards (the snapped
box no longer overlaps anything solid). -/
theorem xpassCore (w : World) (velx : Rat) (b : IVec3) (F : Nat) (hF : 3 ≤ F)
    (hsolid : isSolid (getBlock w b) = true)
    (honly : ∀ c : IVec3, c ≠ b → isSolid (getBlock w c) = false)
    (hvx : 0 < velx) (s0 : Vec3Q)
    (hov : overlaps (getPlayerAABB s0) (blockBox b.x b.y b.z)) :
    forLoopQ
      (fun y s =>
        forLoopQ
          (fun x s2 =>
            forLoopQ (fun z s3 => collideCellX w velx x y z s3)
              (fun s3 => Rat.floor (getPlayerAABB s3).max.z) F
              (Rat.floor (getPlayerAABB s2).min.z) s2)
          (fun s2 => Rat.floor (getPlayerAABB s2).max.x) F
          (Rat.floor (getPlayerAABB s).min.x) s)
      (fun s => Rat.floor (getPlayerAABB s).max.y) F
      (Rat.floor (getPlayerAABB s0).min.y) s0 =
    ⟨(b.x : Rat) - PLAYER_WIDTH / 2 - 1/10000, s0.y, s0.z⟩ := by
  obtain ⟨h1, h2, h3, h4, h5, h6⟩ := id hov
  simp only [blockBox, getPlayerAABB] at h1 h2 h3 h4 h5 h6
  have hxlo : Rat.floor ((getPlayerAABB s0).min.x) ≤ b.x := by
    rw [ratFloor_eq]
    have hlt : (getPlayerAABB s0).min.x < ((b.x + 1 : Int) : Rat) := by
      push_cast
      simp only [getPlayerAABB]
      linarith
    have := Int.floor_lt.mpr hlt
    omega
  have hxhi : b.x ≤ Rat.floor ((getPlayerAABB s0).max.x) := by
    rw [ratFloor_eq]
    apply Int.le_floor.mpr
    simp only [getPlayerAABB]
    linarith
  have hxmax : Rat.floor ((getPlayerAABB s0).max.x) ≤ Rat.floor ((getPlayerAABB s0).min.x) + 1 := by
    rw [ratFloor_eq, ratFloor_eq]
    have hle : (getPlayerAABB s0).max.x ≤ (getPlayerAABB s0).min.x + ((1 : Int) : Rat) := by
      simp only [getPlayerAABB]
      unfold PLAYER_WIDTH
      linarith
    calc ⌊(getPlayerAABB s0).max.x⌋ ≤ ⌊(getPlayerAABB s0).min.x + ((1 : Int) : Rat)⌋ :=
          Int.floor_le_floor hle
      _ = ⌊(getPlayerAABB s0).min.x⌋ + 1 := Int.floor_add_int _ 1
  have hylo : Rat.floor ((getPlayerAABB s0).min.y) ≤ b.y := by
    rw [ratFloor_eq]
    have hlt : (getPlayerAABB s0).min.y < ((b.y + 1 : Int) : Rat) := by
      push_cast
      simp only [getPlayerAABB]
      linarith
    have := Int.floor_lt.mpr hlt
    omega
  have hyhi : b.y ≤ Rat.floor ((getPlayerAABB s0).max.y) := by
    rw [ratFloor_eq]
    apply Int.le_floor.mpr
    simp only [getPlayerAABB]
    linarith
  have hymax : Rat.floor ((getPlayerAABB s0).max.y) ≤ Rat.floor ((getPlayerAABB s0).min.y) + 2 := by
    rw [ratFloor_eq, ratFloor_eq]
    have hle : (getPlayerAABB s0).max.y ≤ (getPlayerAABB s0).min.y + ((2 : Int) : Rat) := by
      simp only [getPlayerAABB]
      unfold PLAYER_HEIGHT
      linarith
    calc ⌊(getPlayerAABB s0).max.y⌋ ≤ ⌊(getPlayerAABB s0).min.y + ((2 : Int) : Rat)⌋ :=
          Int.floor_le_floor hle
      _ = ⌊(getPlayerAABB s0).min.y⌋ + 2 := Int.floor_add_int _ 2
  have hzlo : Rat.floor ((getPlayerAABB s0).min.z) ≤ b.z := by
    rw [ratFloor_eq]
    have hlt : (getPlayerAABB s0).min.z < ((b.z + 1 : Int) : Rat) := by
      push_cast
      simp only [getPlayerAABB]
      linarith
    have := Int.floor_lt.mpr hlt
    omega
  have hzhi : b.z ≤ Rat.floor ((getPlayerAABB s0).max.z) := by
    rw [ratFloor_eq]
    apply Int.le_floor.mpr
    simp only [getPlayerAABB]
    linarith
  have hzmax : Rat.floor ((getPlayerAABB s0).max.z) ≤ Rat.floor ((getPlayerAABB s0).min.z) + 1 := by
    rw [ratFloor_eq, ratFloor_eq]
    have hle : (getPlayerAABB s0).max.z ≤ (getPlayerAABB s0).min.z + ((1 : Int) : Rat) := by
      simp only [getPlayerAABB]
      unfold PLAYER_WIDTH
      linarith
    calc ⌊(getPlayerAABB s0).max.z⌋ ≤ ⌊(getPlayerAABB s0).min.z + ((1 : Int) : Rat)⌋ :=
          Int.floor_le_floor hle
      _ = ⌊(getPlayerAABB s0).min.z⌋ + 1 := Int.floor_add_int _ 1
  have hidcell : ∀ x y z : Int, (⟨x, y, z⟩ : IVec3) ≠ b → ∀ t : Vec3Q,
      collideCellX w velx x y z t = t := by
    intro x y z hne t
    unfold collideCellX
    rw [honly ⟨x, y, z⟩ hne]
    simp
  have hcell : collideCellX w velx b.x b.y b.z s0 =
      ⟨(b.x : Rat) - PLAYER_WIDTH / 2 - 1/10000, s0.y, s0.z⟩ := by
    unfold collideCellX
    rw [if_pos (show isSolid (getBlock w ⟨b.x, b.y, b.z⟩) = true from hsolid),
      if_pos hov, if_pos hvx]
  have hzloop : forLoopQ (fun z s3 => collideCellX w velx b.x b.y z s3)
      (fun s3 => Rat.floor (getPlayerAABB s3).max.z) F
      (Rat.floor (getPlayerAABB s0).min.z) s0 =
      ⟨(b.x : Rat) - PLAYER_WIDTH / 2 - 1/10000, s0.y, s0.z⟩ := by
    rw [forLoopQ_single (fun z s3 => collideCellX w velx b.x b.y z s3)
      (fun s3 => Rat.floor (getPlayerAABB s3).max.z) s0 b.z
      (fun i hi t => hidcell b.x b.y i (fun he => hi (congrArg IVec3.z he)) t)
      hzhi F (Rat.floor (getPlayerAABB s0).min.z) hzlo (by omega)]
    exact hcell
  have hxbody_id : ∀ x, x ≠ b.x → ∀ t : Vec3Q,
      forLoopQ (fun z s3 => collideCellX w velx x b.y z s3)
        (fun s3 => Rat.floor (getPlayerAABB s3).max.z) F
        (Rat.floor (getPlayerAABB t).min.z) t = t := by
    intro x hx t
    exact forLoopQ_id _ _ t (Rat.floor (getPlayerAABB t).min.z)
      (fun i _ => hidcell x b.y i (fun he => hx (congrArg IVec3.x he)) t)
      F _ le_rfl
  have hxloop : forLoopQ
      (fun x s2 =>
        forLoopQ (fun z s3 => collideCellX w velx x b.y z s3)
          (fun s3 => Rat.floor (getPlayerAABB s3).max.z) F
          (Rat.floor (getPlayerAABB s2).min.z) s2)
      (fun s2 => Rat.floor (getPlayerAABB s2).max.x) F
      (Rat.floor (getPlayerAABB s0).min.x) s0 =
      ⟨(b.x : Rat) - PLAYER_WIDTH / 2 - 1/10000, s0.y, s0.z⟩ := by
    rw [forLoopQ_single _ (fun s2 => Rat.floor (getPlayerAABB s2).max.x) s0 b.x
      (fun i hi t => hxbody_id i hi t) hxhi F (Rat.floor (getPlayerAABB s0).min.x)
      hxlo (by omega)]
    exact hzloop
  have hybody_id : ∀ y, y ≠ b.y → ∀ t : Vec3Q,
      forLoopQ
        (fun x s2 =>
          forLoopQ (fun z s3 => collideCellX w velx x y z s3)
            (fun s3 => Rat.floor (getPlayerAABB s3).max.z) F
            (Rat.floor (getPlayerAABB s2).min.z) s2)
        (fun s2 => Rat.floor (getPlayerAABB s2).max.x) F
        (Rat.floor (getPlayerAABB t).min.x) t = t := by
    intro y hy t
    refine forLoopQ_id
      (fun x s2 =>
        forLoopQ (fun z s3 => collideCellX w velx x y z s3)
          (fun s3 => Rat.floor (getPlayerAABB s3).max.z) F
          (Rat.floor (getPlayerAABB s2).min.z) s2)
      (fun s2 => Rat.floor (getPlayerAABB s2).max.x) t
      (Rat.floor (getPlayerAABB t).min.x) ?_ F _ le_rfl
    intro x _
    exact forLoopQ_id (fun z s3 => collideCellX w velx x y z s3)
      (fun s3 => Rat.floor (getPlayerAABB s3).max.z) t
      (Rat.floor (getPlayerAABB t).min.z)
      (fun z _ => hidcell x y z (fun he => hy (congrArg IVec3.y he)) t)
      F _ le_rfl
  rw [forLoopQ_single _ (fun s => Rat.floor (getPlayerAABB s).max.y) s0 b.y
    (fun i hi t => hybody_id i hi t) hyhi F (Rat.floor (getPlayerAABB s0).min.y)
    hylo (by omega)]
  exact hxloop

/-- C7: during the X pass of collision resolution, for a displacement with
positive x component whose resulting box (width 0.6, height 1.8) overlaps
the single solid cell `b` of the world, the resolver sets `position.x` to
`b.x - PLAYER_WIDTH/2 - 1e-4` and leaves `position.y` and `position.z`
unchanged; the pass reads the velocity but writes no velocity component
(`resolveCollisionsX` does not touch it).  `F` is any fuel at least 3; the
sweep exits through its loop conditions well before that. -/
theorem C7_xpass_snap (w : World) (position velocity : Vec3Q) (b : IVec3) (F : Nat)
    (hF : 3 ≤ F)
    (hsolid : isSolid (getBlock w b) = true)
    (honly : ∀ c : IVec3, c ≠ b → isSolid (getBlock w c) = false)
    (hvx : 0 < velocity.x)
    (hov : overlaps
      (getPlayerAABB ⟨position.x + velocity.x, position.y, position.z⟩)
      (blockBox b.x b.y b.z)) :
    resolveCollisionsX w position velocity F =
      ⟨(b.x : Rat) - PLAYER_WIDTH / 2 - 1/10000, position.y, position.z⟩ := by
  unfold resolveCollisionsX
  exact xpassCore w velocity.x b F hF hsolid honly hvx
    ⟨position.x + velocity.x, position.y, position.z⟩ hov

theorem C7_xpass_snap_witness :
    resolveCollisionsX stoneWorld ⟨6/5, 0, 1/2⟩ ⟨3/5, 0, 0⟩ 3 =
      ⟨((2 : Int) : Rat) - PLAYER_WIDTH / 2 - 1/10000, 0, 1/2⟩ :=
  C7_xpass_snap stoneWorld ⟨6/5, 0, 1/2⟩ ⟨3/5, 0, 0⟩ ⟨2, 0, 0⟩ 3 le_rfl
    (by with_unfolding_all decide)
    (by
      intro c hc
      unfold getBlock
      by_cases hcc : worldToChunkCoords c = ⟨0, 0, 0⟩
      · have hch : stoneWorld.chunks (worldToChunkCoords c) = some stoneChunk := by
          show (if worldToChunkCoords c = ⟨0, 0, 0⟩ then some stoneChunk else none) =
            some stoneChunk
          rw [if_pos hcc]
        have hlp : localPos c (worldToChunkCoords c) = c := by
          rw [hcc]
          cases c with
          | mk cx cy cz =>
            simp only [localPos, CHUNK_SIZE, IVec3.mk.injEq]
            omega
        rw [hch]
        dsimp only
        rw [hlp]
        split_ifs with hb
        · show isSolid (stoneChunk.blocks c) = false
          unfold stoneChunk
          dsimp only
          rw [if_neg hc]
          rfl
        · rfl
      · have hch : stoneWorld.chunks (worldToChunkCoords c) = none := by
          show (if worldToChunkCoords c = ⟨0, 0, 0⟩ then some stoneChunk else none) = none
          rw [if_neg hcc]
        rw [hch]
        rfl)
    (by with_unfolding_all decide)
    (by with_unfolding_all decide)

end QtCraft
